import Mathlib

/-!
Shallow embedding of the goal-directed action planner of `src/app.ts`
(emoji-world).  JavaScript numbers are modelled as rationals (`ℚ`);
inventory counts as integers (`ℤ`); action costs as `WithTop ℚ` so that
the `Infinity` returned by `entityDistance` when no entity of the kind
exists is represented faithfully (`⊤ + x = ⊤`, `¬ ⊤ < ⊤`).
-/

namespace EmojiWorld

/-- Source `Position` from `src/app.ts`: a grid coordinate. -/
structure Position where
  row : ℤ
  column : ℤ
deriving DecidableEq, Repr

/-- Source `Equipment` from `src/app.ts`: `"axe" | "rod"`. -/
inductive Equipment where
  | axe
  | rod
deriving DecidableEq, Repr

/-- The entity kinds of the `Entity` union type in `src/app.ts`. -/
inductive EntityKind where
  | apple
  | tree
  | branch
  | stone
  | house
  | well
  | fire
deriving DecidableEq, Repr

/-- An `Entity` from `src/app.ts`: a kind plus a position; only `fire`
carries a `life` field, modelled as an optional number. -/
structure Entity where
  kind : EntityKind
  position : Position
  life : Option ℚ := none
deriving DecidableEq, Repr

/-- Source `Inventory` from `src/app.ts`.  Counts are JS numbers that the action
effects freely decrement, so they are modelled as integers. -/
structure Inventory where
  logs : ℤ
  branches : ℤ
  stones : ℤ
  apples : ℤ
  fish : ℤ
  cookedFish : ℤ
deriving DecidableEq, Repr

/-- The resource kinds appearing as keys of `Inventory`. -/
inductive InvField where
  | logs
  | branches
  | stones
  | apples
  | fish
  | cookedFish
deriving DecidableEq, Repr

/-- Read an inventory count by key (`(agent.inventory as any)[key]`). -/
def Inventory.get (inv : Inventory) : InvField → ℤ
  | .logs => inv.logs
  | .branches => inv.branches
  | .stones => inv.stones
  | .apples => inv.apples
  | .fish => inv.fish
  | .cookedFish => inv.cookedFish

/-- Write an inventory count by key (used by `addToInventory`). -/
def Inventory.set (inv : Inventory) : InvField → ℤ → Inventory
  | .logs, n => { inv with logs := n }
  | .branches, n => { inv with branches := n }
  | .stones, n => { inv with stones := n }
  | .apples, n => { inv with apples := n }
  | .fish, n => { inv with fish := n }
  | .cookedFish, n => { inv with cookedFish := n }

/-- The numeric "drive" fields of `Agent` that goals target
(`hunger`, `thirst`, `energy`, `social`). -/
inductive NumField where
  | hunger
  | thirst
  | energy
  | social
deriving DecidableEq, Repr

/-- The boolean fields of `Agent` that a goal state can target. -/
inductive BoolField where
  | alive
  | hasShelter
  | inRange
deriving DecidableEq, Repr

/-- Source `Agent` from `src/app.ts`.  The `goal` and `plan` fields of the
source `Agent` are omitted: they are never read by the planner,
the distance heuristic, the transition applier, `goalSatisfied`, or any
action in the catalog (only the out-of-scope simulation/render loop uses
them), and including them would make `Agent` mutually recursive with
`Action`. -/
structure Agent where
  id : ℤ
  position : Position
  destination : Option Position
  alive : Bool
  hunger : ℚ
  thirst : ℚ
  energy : ℚ
  social : ℚ
  holding : Option Equipment
  hasShelter : Bool
  shelterLocation : Option Position
  inRange : Bool
  inventory : Inventory
deriving DecidableEq, Repr

/-- Read a numeric drive field of the agent by key. -/
def Agent.numField (a : Agent) : NumField → ℚ
  | .hunger => a.hunger
  | .thirst => a.thirst
  | .energy => a.energy
  | .social => a.social

/-- Read a boolean field of the agent by key. -/
def Agent.boolField (a : Agent) : BoolField → Bool
  | .alive => a.alive
  | .hasShelter => a.hasShelter
  | .inRange => a.inRange

/-- Source `State` from `src/app.ts`.  The background grid is a row-major list
of rows of optional entities. -/
structure State where
  timeOfDay : ℚ
  agents : List Agent
  background : List (List (Option Entity))
  width : ℤ
  height : ℤ
deriving DecidableEq, Repr

/-- Source `EffectedStateAndAgent` from `src/app.ts`. -/
structure EffectedStateAndAgent where
  state : State
  agent : Agent
deriving Repr

/-- One key/target entry of a `GoalState` object.  The source's
`GoalState` is `{ [key: string]: any }`; `goalDistance` and
`goalSatisfied` dispatch on the key being `"inventory"`, `"holding"`, or
on the target value being a number or a boolean, so a well-typed goal
entry is one of these four shapes.  A list models the object's keys in
insertion order (`Object.keys` order). -/
inductive GoalEntry where
  | inventory (targets : List (InvField × ℤ))
  | holding (target : Option Equipment)
  | num (field : NumField) (target : ℚ)
  | boolean (field : BoolField) (target : Bool)
deriving DecidableEq, Repr

/-- Source `GoalState` from `src/app.ts`, as the ordered list of its entries. -/
def GoalState := List GoalEntry

/-- Source `Goal` from `src/app.ts`. -/
structure Goal where
  name : String
  goalState : GoalState

/-- The `inventory` branch of `goalDistance`: for every resource-kind in
the target inventory, `abs(target_count - agent_count)` is accumulated. -/
def inventoryDistance (inv : Inventory) (targets : List (InvField × ℤ)) : ℤ :=
  (targets.map (fun p => |p.2 - inv.get p.1|)).sum

/-- The loop of `goalDistance` (`src/app.ts:580`), with the running
`distance` accumulator made explicit.  A satisfied numeric entry makes
the whole function return 0, discarding the accumulator (`return 0`). -/
def goalDistanceGo (agent : Agent) : GoalState → ℚ → ℚ
  | [], acc => acc
  | .inventory ts :: rest, acc =>
      goalDistanceGo agent rest (acc + (inventoryDistance agent.inventory ts : ℚ))
  | .holding t :: rest, acc =>
      goalDistanceGo agent rest (acc + if agent.holding = t then 0 else 1)
  | .num f t :: rest, acc =>
      if t ≤ agent.numField f then 0
      else goalDistanceGo agent rest (acc + |t - agent.numField f| / 100)
  | .boolean f b :: rest, acc =>
      goalDistanceGo agent rest (acc + if b = agent.boolField f then 0 else 1)

/-- Source `goalDistance(state, agent, goalState)` from `src/app.ts:580`.  The
`state` argument is taken but never used, as in the source. -/
def goalDistance (state : State) (agent : Agent) (goalState : GoalState) : ℚ :=
  goalDistanceGo agent goalState 0

/-- The per-key check of `goalSatisfied` (`src/app.ts:272`): if the
agent's value for the key is a number, `agent[key] >= goal[key]`,
otherwise strict equality `===`.  For an `inventory` entry the agent's
value is an object and the goal's a distinct object literal, so JS
reference equality `===` is `false`. -/
def goalEntrySatisfied (agent : Agent) : GoalEntry → Bool
  | .inventory _ => false
  | .holding t => agent.holding = t
  | .num f t => t ≤ agent.numField f
  | .boolean f b => agent.boolField f = b

/-- Source `goalSatisfied(agent, goal)` from `src/app.ts:272`: the loop writes
`satisfied` anew for every key, so only the last key's check survives. -/
def goalSatisfied (agent : Agent) (goal : Goal) : Bool :=
  goal.goalState.foldl (fun _ e => goalEntrySatisfied agent e) true

/-- Source `Action` from `src/app.ts:106`.  Precondition checks return a JS
number (0 meaning performable); costs may be `Infinity`
(`entityDistance` of an absent kind), modelled as `⊤ : WithTop ℚ`. -/
structure Action where
  name : String
  requiresInRange : Bool
  range : Option ℚ := none
  findTarget : State → Agent → Option Position
  canBePerformed : State → Agent → ℚ
  effect : State → Agent → EffectedStateAndAgent
  cost : State → Agent → WithTop ℚ

/-- Source `Plan` from `src/app.ts`. -/
def Plan := List Action

/-- Source `applyActions(actions, current, strict)` from `src/app.ts:371`: in
strict mode the iteration stops (returning the accumulated pair) at the
first action whose precondition check is non-zero; otherwise every
effect is applied. -/
def applyActions (actions : List Action) (current : EffectedStateAndAgent)
    (strict : Bool) : EffectedStateAndAgent :=
  match actions with
  | [] => current
  | action :: rest =>
      if strict ∧ action.canBePerformed current.state current.agent ≠ 0 then
        current
      else
        applyActions rest (action.effect current.state current.agent) strict

/-- Source `Solution` from `src/app.ts:345`: a backward-search node.  The
source field `nextSteps : Solution | null` is modelled by the two
constructors: `base` is a node with `nextSteps === null`, `link` a node
whose `nextSteps` is another node (this keeps all recursion over the
chain structural). -/
inductive Solution where
  | base (toPerform : Option Action) (actions : List Action)
  | link (nextSteps : Solution) (toPerform : Option Action)
      (actions : List Action)

/-- The `nextSteps` field of a `Solution` (`null` as `none`). -/
def Solution.nextSteps : Solution → Option Solution
  | .base _ _ => none
  | .link n _ _ => some n

/-- The `toPerform` field of a `Solution`. -/
def Solution.toPerform : Solution → Option Action
  | .base t _ => t
  | .link _ t _ => t

/-- The `actions` field of a `Solution`. -/
def Solution.actions : Solution → List Action
  | .base _ a => a
  | .link _ _ a => a

/-- The object spread `{ ...solution, actions: newPlan }` used by the
candidate loop: the same node with its action list replaced. -/
def Solution.withActions : Solution → List Action → Solution
  | .base t _, newPlan => .base t newPlan
  | .link n t _, newPlan => .link n t newPlan

/-- Source `solutionToActions(solution)` from `src/app.ts:351`: flatten a node
chain into a forward-ordered action list (a node's own actions precede
everything from its `nextSteps` link). -/
def solutionToActions : Solution → List Action
  | .base _ actions => actions
  | .link next _ actions => actions ++ solutionToActions next

/-- Source `cost(solution, state, agent)` from `src/app.ts:387`: the sum of the
costs of this node's actions plus the cost of its `nextSteps` chain. -/
def cost (state : State) (agent : Agent) : Solution → WithTop ℚ
  | .base _ actions =>
      (actions.map (fun a => a.cost state agent)).foldl (· + ·) 0
  | .link next _ actions =>
      (actions.map (fun a => a.cost state agent)).foldl (· + ·) 0 +
        cost state agent next

/-- Modelled from the spec: the `qheap` priority queue used by
`makePlanBetter` is an npm dependency whose source is not in the
repository.  Spec §4.3: "Maintain a priority queue of Solution nodes
ordered by ascending total cost"; spec tie-breaking rule: "when two
candidates have equal cost, queue order is insertion order (stable)".
The queue is therefore modelled as a cost-sorted list into which a new
node is inserted after every node whose cost is not greater
(`comparBefore: cost(a) < cost(b)`), and `shift` pops the head. -/
def insertSorted (state : State) (agent : Agent) (sol : Solution) :
    List Solution → List Solution
  | [] => [sol]
  | q :: rest =>
      if cost state agent sol < cost state agent q then
        sol :: q :: rest
      else
        q :: insertSorted state agent sol rest

/-- The `isSolution` closure of `makePlanBetter` (`src/app.ts:407`):
apply the flattened plan strictly from the root pair and test whether
the goal distance of the outcome is exactly 0. -/
def isSolution (state : State) (agent : Agent) (goal : Goal)
    (sol : Solution) : Bool :=
  let actions := solutionToActions sol
  let outcome := applyActions actions ⟨state, agent⟩ true
  goalDistance outcome.state outcome.agent goal.goalState = 0

/-- The progress measure of a node (`check` in `makePlanBetter`,
`src/app.ts:433`): the overall goal distance for a root-level node, and
the precondition deficit of `toPerform` for a refinement level.  A node
with a `nextSteps` link always carries a `toPerform` in the source (the
source dereferences it unconditionally); the `none` case is dead code
kept only for totality. -/
def nodeCheck (goal : Goal) (sol : Solution) : State → Agent → ℚ :=
  match sol with
  | .base _ _ => fun s a => goalDistance s a goal.goalState
  | .link _ (some t) _ => t.canBePerformed
  | .link _ none _ => fun _ _ => 0

/-- One iteration of the candidate loop of `makePlanBetter`
(`src/app.ts:444`): prepend the candidate to the node's action list,
re-evaluate the node's progress measure non-strictly from the root pair,
and insert a refinement level (measure newly 0) or an extension of the
current level (partial progress) into the queue; otherwise prune. -/
def considerCandidate (state : State) (agent : Agent)
    (check : State → Agent → ℚ) (sol : Solution) (dist : ℚ)
    (q : List Solution) (action : Action) : List Solution :=
  let newPlan := action :: sol.actions
  let updated := applyActions newPlan ⟨state, agent⟩ false
  let updatedDistance := check updated.state updated.agent
  let delta := dist - updatedDistance
  if 0 < delta ∧ updatedDistance = 0 then
    insertSorted state agent (.link (sol.withActions newPlan) (some action) []) q
  else if 0 < delta then
    insertSorted state agent (sol.withActions newPlan) q
  else
    q

/-- The expansion of one popped node: the body of the `while` loop of
`makePlanBetter` after the pop, folding the candidate loop over the
action catalog in catalog order. -/
def expand (catalog : List Action) (state : State) (agent : Agent)
    (goal : Goal) (sol : Solution) (q : List Solution) : List Solution :=
  let check := nodeCheck goal sol
  let statesWithActions := applyActions sol.actions ⟨state, agent⟩ false
  let dist := check statesWithActions.state statesWithActions.agent
  catalog.foldl (considerCandidate state agent check sol dist) q

/-- The `while ((solution = solutionQueue.shift()) && !isSolution(...))`
loop of `makePlanBetter` (`src/app.ts:428`), with an explicit fuel bound
on the number of pops (the source loop has no such bound).  `none` means
the fuel ran out; `some none` is the source's `null` (queue emptied);
`some (some p)` is a returned plan. -/
def planLoop (catalog : List Action) (state : State) (agent : Agent)
    (goal : Goal) : ℕ → List Solution → Option (Option Plan)
  | 0, _ => none
  | _ + 1, [] => some none
  | fuel + 1, sol :: rest =>
      if isSolution state agent goal sol then
        some (some (solutionToActions sol))
      else
        planLoop catalog state agent goal fuel
          (expand catalog state agent goal sol rest)

/-- Source `makePlanBetter(agent, state, goal)` from `src/app.ts:402`,
parameterised by the action catalog and by a fuel bound on loop
iterations.  The queue is seeded with the single root node with no
actions and no link (the seed's extra `cost: 0` property in the source
is never read). -/
def makePlanBetterWith (fuel : ℕ) (catalog : List Action) (agent : Agent)
    (state : State) (goal : Goal) : Option (Option Plan) :=
  planLoop catalog state agent goal fuel [.base none []]

/-- Source `distance(a, b)` from `src/app.ts:1276`: Manhattan distance. -/
def pdistance (a b : Position) : ℤ :=
  |a.row - b.row| + |a.column - b.column|

/-- Source function `flatten` from `src/app.ts:1114` applied to the background grid:
row-major concatenation. -/
def flattenGrid (g : List (List (Option Entity))) : List (Option Entity) :=
  g.flatten

/-- Source `find(type)` from `src/app.ts:1130`: the flattened grid is filtered
to the entities of the kind and sorted by distance to the agent; `[0]`
of a stable sort is the first row-major entity at minimal distance.
Modelled as a fold that keeps the earliest strict minimum. -/
def findEntity (t : EntityKind) (state : State) (agent : Agent) :
    Option Entity :=
  ((flattenGrid state.background).filterMap id).foldl
    (fun best e =>
      if e.kind = t then
        match best with
        | none => some e
        | some b =>
            if pdistance e.position agent.position <
                pdistance b.position agent.position then
              some e
            else
              some b
      else best)
    none

/-- Source `find(type)(state, agent)` returning the found entity's position. -/
def find (t : EntityKind) (state : State) (agent : Agent) :
    Option Position :=
  (findEntity t state agent).map (fun e => e.position)

/-- Source `entityDistance(type)` from `src/app.ts:1118`: `Infinity` (here `⊤`)
when no entity of the kind exists. -/
def entityDistance (t : EntityKind) (state : State) (agent : Agent) :
    WithTop ℚ :=
  match find t state agent with
  | none => ⊤
  | some p => ((pdistance p agent.position : ℚ) : WithTop ℚ)

/-- Source `entityExists(type)` from `src/app.ts:1188` (the source closure
ignores the agent argument). -/
def entityExists (t : EntityKind) (state : State) (_agent : Agent) : ℚ :=
  if (flattenGrid state.background).any
      (fun e => match e with | some e => e.kind = t | none => false) then
    0
  else
    1

/-- Source `has(type, quantity)` from `src/app.ts:1244`: the remaining deficit,
clamping the agent's count at 0 from below. -/
def has (t : InvField) (quantity : ℤ) (_state : State) (agent : Agent) : ℚ :=
  let difference := quantity - max 0 (agent.inventory.get t)
  if difference ≤ 0 then 0 else (difference : ℚ)

/-- Source `holding(kind)` from `src/app.ts:1182`. -/
def holding (kind : Option Equipment) (_state : State) (agent : Agent) : ℚ :=
  if agent.holding = kind then 0 else 1

/-- Source `both(a, b)` from `src/app.ts:1170`: the sum of two deficits. -/
def both (a b : State → Agent → ℚ) (state : State) (agent : Agent) : ℚ :=
  a state agent + b state agent

/-- Source `either(a, b)` from `src/app.ts:1176`. -/
def either (a b : State → Agent → ℚ) (state : State) (agent : Agent) : ℚ :=
  if a state agent = 0 ∨ b state agent = 0 then 0 else 1

/-- Source `otherAgentExists` from `src/app.ts:1164`. -/
def otherAgentExists (state : State) (agent : Agent) : ℚ :=
  if state.agents.any (fun a => a.id ≠ agent.id) then 0 else 1

/-- Source `findOtherAgent` from `src/app.ts:1148`: nearest other agent's
position (stable sort, so the earliest minimal in list order). -/
def findOtherAgent (state : State) (agent : Agent) : Option Position :=
  ((state.agents.filter (fun a => a.id ≠ agent.id)).foldl
    (fun best a =>
      match best with
      | none => some a
      | some b =>
          if pdistance a.position agent.position <
              pdistance b.position agent.position then
            some a
          else
            some b)
    none).map (fun a => a.position)

/-- Source `nearestCoastTile` from `src/app.ts:1101`: the nearest of the four
hard-coded border tiles (stable sort, earliest minimal in listed
order). -/
def nearestCoastTile (state : State) (agent : Agent) : Option Position :=
  let possibilities : List Position :=
    [⟨0, agent.position.column⟩, ⟨19, agent.position.column⟩,
      ⟨agent.position.row, 0⟩, ⟨agent.position.row, 59⟩]
  possibilities.foldl
    (fun best p =>
      match best with
      | none => some p
      | some b =>
          if pdistance p agent.position < pdistance b agent.position then
            some p
          else
            some b)
    none

/-- Null the first cell of a row matching the predicate; the returned
flag reports whether a match was consumed. -/
def removeFirstInRow (p : Entity → Bool) :
    List (Option Entity) → List (Option Entity) × Bool
  | [] => ([], false)
  | none :: rest =>
      let (rest', found) := removeFirstInRow p rest
      (none :: rest', found)
  | some e :: rest =>
      if p e then (none :: rest, true)
      else
        let (rest', found) := removeFirstInRow p rest
        (some e :: rest', found)

/-- Null the first row-major grid cell matching the predicate. -/
def removeFirstInGrid (p : Entity → Bool) :
    List (List (Option Entity)) → List (List (Option Entity))
  | [] => []
  | row :: rows =>
      let (row', found) := removeFirstInRow p row
      if found then row' :: rows else row' :: removeFirstInGrid p rows

/-- Source `removeAdjacent(state, agent, type)` from `src/app.ts:1225`: the
first row-major entity of the kind within Manhattan distance 1 of the
agent (per the entity's own `position` field) is removed from the grid;
the `entity === adjacentApple` identity test nulls exactly that cell. -/
def removeAdjacent (state : State) (agent : Agent) (t : EntityKind) :
    State :=
  { state with
    background :=
      removeFirstInGrid
        (fun e => e.kind = t ∧ pdistance agent.position e.position ≤ 1)
        state.background }

/-- Source `map2dArray` from `src/app.ts:1267` with the cell coordinates made
available to the mapping function. -/
def map2dWithPos (f : Option Entity → Position → Option Entity)
    (g : List (List (Option Entity))) : List (List (Option Entity)) :=
  g.enum.map (fun r => r.2.enum.map (fun c => f c.2 ⟨(r.1 : ℤ), (c.1 : ℤ)⟩))

/-- Source `build(type, state, agent)` from `src/app.ts:1198`: place a new
entity one row above the agent (`life: 30` when building a fire). -/
def build (t : EntityKind) (state : State) (agent : Agent) : State :=
  let house : Entity :=
    ⟨t, ⟨agent.position.row - 1, agent.position.column⟩,
      if t = .fire then some 30 else none⟩
  { state with
    background :=
      map2dWithPos
        (fun e p =>
          if p.row = agent.position.row - 1 ∧
              p.column = agent.position.column then
            some house
          else e)
        state.background }

/-- Source `addToInventory(inventory, type, amount)` from `src/app.ts:1256`. -/
def addToInventory (inv : Inventory) (t : InvField) (amount : ℤ) :
    Inventory :=
  inv.set t (inv.get t + amount)

/-- Source `AllActions` from `src/app.ts:835`: the seventeen domain actions, in
source order.  The cost of "Sleep at Shelter" is
`entityDistance("shelter")`; no entity kind `"shelter"` exists in the
`Entity` union, so that distance is always `Infinity` (`⊤`). -/
def AllActions : List Action :=
  [ { name := "Eat apple"
      requiresInRange := false
      findTarget := fun _ _ => some ⟨0, 0⟩
      canBePerformed := has .apples 1
      effect := fun state agent =>
        ⟨state,
          { agent with
            hunger := 100
            inventory :=
              { agent.inventory with apples := agent.inventory.apples - 1 } }⟩
      cost := fun _ _ => (1 : ℚ) },
    { name := "Pick up apple"
      requiresInRange := true
      range := some 1
      findTarget := find .apple
      canBePerformed := entityExists .apple
      effect := fun state agent =>
        ⟨removeAdjacent state agent .apple,
          { agent with
            inventory :=
              { agent.inventory with apples := agent.inventory.apples + 1 } }⟩
      cost := entityDistance .apple },
    { name := "Build Shelter"
      requiresInRange := false
      canBePerformed := has .logs 2
      findTarget := fun _ _ => some ⟨0, 0⟩
      effect := fun state agent =>
        ⟨build .house state agent,
          { agent with
            hasShelter := true
            shelterLocation :=
              some ⟨agent.position.row - 1, agent.position.column⟩
            inventory :=
              { agent.inventory with logs := agent.inventory.logs - 2 } }⟩
      cost := fun _ _ => (1 : ℚ) },
    { name := "Build Well"
      requiresInRange := false
      canBePerformed := has .stones 2
      findTarget := fun _ _ => some ⟨0, 0⟩
      effect := fun state agent =>
        ⟨build .well state agent,
          { agent with
            inventory :=
              { agent.inventory with stones := agent.inventory.stones - 2 } }⟩
      cost := fun _ _ => (1 : ℚ) },
    { name := "Fell Tree"
      requiresInRange := true
      range := some 1
      findTarget := find .tree
      canBePerformed := both (holding (some .axe)) (entityExists .tree)
      effect := fun state agent =>
        ⟨removeAdjacent state agent .tree,
          { agent with
            inventory :=
              { agent.inventory with logs := agent.inventory.logs + 1 } }⟩
      cost := entityDistance .tree },
    { name := "Make Axe"
      requiresInRange := false
      findTarget := fun _ _ => some ⟨0, 0⟩
      canBePerformed := both (has .stones 1) (has .branches 1)
      effect := fun state agent =>
        ⟨state,
          { agent with
            holding := some .axe
            inventory :=
              { agent.inventory with
                stones := agent.inventory.stones - 1
                branches := agent.inventory.branches - 1 } }⟩
      cost := fun _ _ => (1 : ℚ) },
    { name := "Gather Stone"
      requiresInRange := true
      range := some 1
      findTarget := find .stone
      canBePerformed := entityExists .stone
      effect := fun state agent =>
        ⟨removeAdjacent state agent .stone,
          { agent with
            inventory := addToInventory agent.inventory .stones 1 }⟩
      cost := entityDistance .stone },
    { name := "Gather Branch"
      requiresInRange := true
      range := some 1
      findTarget := find .branch
      canBePerformed := entityExists .branch
      effect := fun state agent =>
        ⟨removeAdjacent state agent .branch,
          { agent with
            inventory := addToInventory agent.inventory .branches 1 }⟩
      cost := entityDistance .branch },
    { name := "Drink from Well"
      requiresInRange := true
      range := some 1
      findTarget := find .well
      canBePerformed := entityExists .well
      effect := fun state agent => ⟨state, { agent with thirst := 100 }⟩
      cost := entityDistance .well },
    { name := "Sleep at Shelter"
      requiresInRange := true
      findTarget := fun _ agent => agent.shelterLocation
      canBePerformed := fun _ agent => if agent.hasShelter then 0 else 1
      effect := fun state agent =>
        ⟨state, { agent with energy := agent.energy + 10 }⟩
      cost := fun _ _ => (⊤ : WithTop ℚ) },
    { name := "Eat Cooked Fish"
      requiresInRange := false
      findTarget := fun _ _ => some ⟨0, 0⟩
      canBePerformed := has .cookedFish 1
      effect := fun state agent =>
        ⟨state,
          { agent with
            hunger := 100
            inventory :=
              { agent.inventory with
                cookedFish := agent.inventory.cookedFish - 1 } }⟩
      cost := fun _ _ => (1 : ℚ) },
    { name := "Cook Fish"
      requiresInRange := true
      range := some 1
      findTarget := find .fire
      canBePerformed := both (entityExists .fire) (has .fish 1)
      effect := fun state agent =>
        ⟨state,
          { agent with
            inventory :=
              { agent.inventory with
                fish := agent.inventory.fish - 1
                cookedFish := agent.inventory.cookedFish + 1 } }⟩
      cost := fun _ _ => (1 : ℚ) },
    { name := "Light Fire"
      requiresInRange := false
      findTarget := fun _ _ => some ⟨0, 0⟩
      canBePerformed := has .branches 1
      effect := fun state agent =>
        ⟨build .fire state agent,
          { agent with
            inventory :=
              { agent.inventory with
                branches := agent.inventory.branches - 1 } }⟩
      cost := fun _ _ => (1 : ℚ) },
    { name := "Catch Fish"
      requiresInRange := true
      findTarget := nearestCoastTile
      canBePerformed := holding (some .rod)
      effect := fun state agent =>
        ⟨state,
          { agent with
            inventory :=
              { agent.inventory with fish := agent.inventory.fish + 1 } }⟩
      cost := fun _ _ => (1 : ℚ) },
    { name := "Make Rod"
      requiresInRange := false
      findTarget := fun _ _ => some ⟨0, 0⟩
      canBePerformed := both (holding none) (has .branches 1)
      effect := fun state agent =>
        ⟨state, { agent with holding := some .rod }⟩
      cost := fun _ _ => (1 : ℚ) },
    { name := "Put down equipment"
      requiresInRange := false
      findTarget := fun _ _ => some ⟨0, 0⟩
      canBePerformed := either (holding (some .rod)) (holding (some .axe))
      effect := fun state agent => ⟨state, { agent with holding := none }⟩
      cost := fun _ _ => (1 : ℚ) },
    { name := "Chat"
      requiresInRange := true
      range := some 1
      findTarget := findOtherAgent
      canBePerformed := otherAgentExists
      effect := fun state agent =>
        ⟨state, { agent with social := agent.social + 20 }⟩
      cost := fun _ _ => (1 : ℚ) } ]

/-- Source `makePlanBetter(agent, state, goal)` from `src/app.ts:402` with the
concrete catalog `AllActions`, bounded by an explicit fuel on the number
of queue pops. -/
def makePlanBetter (fuel : ℕ) (agent : Agent) (state : State)
    (goal : Goal) : Option (Option Plan) :=
  makePlanBetterWith fuel AllActions agent state goal

/-- Non-strict application: every effect is applied in order (the
`strict = false` behaviour of `applyActions`, as a plain fold). -/
def applyAllEffects (actions : List Action) (current : EffectedStateAndAgent) :
    EffectedStateAndAgent :=
  actions.foldl (fun cur a => a.effect cur.state cur.agent) current

/-- Every action in the list is performable at the point it is reached
when the effects are applied in order. -/
def stepsPerformable : List Action → EffectedStateAndAgent → Prop
  | [], _ => True
  | a :: rest, cur =>
      a.canBePerformed cur.state cur.agent = 0 ∧
        stepsPerformable rest (a.effect cur.state cur.agent)

/-- Either the list is empty, or its head action's precondition check is
non-zero at the given pair (the step strict application blocks on). -/
def blockedHead : List Action → EffectedStateAndAgent → Prop
  | [], _ => True
  | b :: _, cur => b.canBePerformed cur.state cur.agent ≠ 0

/-- The goal distance after strictly applying a plan from a root pair:
the quantity `makePlanBetter`'s `isSolution` tests against 0. -/
def strictGoalDistance (state : State) (agent : Agent) (goal : Goal)
    (p : List Action) : ℚ :=
  let outcome := applyActions p ⟨state, agent⟩ true
  goalDistance outcome.state outcome.agent goal.goalState

/-- The queue invariant of the spec-modelled priority queue: costs are
pairwise non-decreasing from head to tail. -/
def QueueSorted (state : State) (agent : Agent) (q : List Solution) : Prop :=
  q.Pairwise (fun a b => cost state agent a ≤ cost state agent b)

/-- An empty inventory. -/
def emptyInventory : Inventory := ⟨0, 0, 0, 0, 0, 0⟩

/-- A basic agent used by concrete witnesses and counterexamples. -/
def baseAgent : Agent :=
  { id := 1
    position := ⟨0, 0⟩
    destination := none
    alive := true
    hunger := 50
    thirst := 50
    energy := 50
    social := 50
    holding := none
    hasShelter := false
    shelterLocation := none
    inRange := false
    inventory := emptyInventory }

/-- A world with an empty two-by-two background and one agent. -/
def emptyState : State :=
  { timeOfDay := 8
    agents := [baseAgent]
    background := [[none, none], [none, none]]
    width := 2
    height := 2 }

/-- The agent of the C4 counterexample: holding a rod, one log, two
branches, no stones. -/
def cexAgent : Agent :=
  { baseAgent with
    holding := some .rod
    inventory := { emptyInventory with logs := 1, branches := 2 } }

/-- The world of the C4 counterexample: a tree next to the agent and a
stone out of reach (so gathering it removes nothing). -/
def cexState : State :=
  { timeOfDay := 8
    agents := [cexAgent]
    background :=
      [[none, some ⟨.tree, ⟨0, 1⟩, none⟩, none, none],
        [none, none, none, some ⟨.stone, ⟨1, 3⟩, none⟩]]
    width := 4
    height := 2 }

/-- The goal of the C4 counterexample: own a shelter and end with
exactly one branch. -/
def cexGoal : Goal :=
  ⟨"shelter and one branch",
    [.boolean .hasShelter true, .inventory [(.branches, 1)]]⟩

/-- The plan `makePlanBetter` returns on the C4 counterexample fixture:
Gather Stone, Make Axe, Fell Tree, Build Shelter, Make Axe.  The
trailing Make Axe is the root level's branch-reducing action; by the
time it is reached the inner Make Axe (inserted to enable Fell Tree)
has already consumed the branch and the stone, so it is blocked and
removable. -/
def cexPlan : List Action :=
  [AllActions.get ⟨6, by norm_num [AllActions]⟩,
    AllActions.get ⟨5, by norm_num [AllActions]⟩,
    AllActions.get ⟨4, by norm_num [AllActions]⟩,
    AllActions.get ⟨2, by norm_num [AllActions]⟩,
    AllActions.get ⟨5, by norm_num [AllActions]⟩]

/-- Goal used by witnesses: be social (target 100). -/
def socialGoal : Goal := ⟨"Talk", [.num .social 100]⟩

/-- Agent used by the C7 witness: social 85, so one Chat reaches 105 and
zeroes the goal distance. -/
def c7Agent : Agent := { baseAgent with social := 85 }

/-- A second agent, so that Chat's precondition and target exist. -/
def c7Other : Agent := { baseAgent with id := 2, position := ⟨1, 1⟩ }

/-- World of the C7 witness: two agents, empty background. -/
def c7State : State :=
  { timeOfDay := 8
    agents := [c7Agent, c7Other]
    background := [[none, none], [none, none]]
    width := 2
    height := 2 }

/-- The Chat action (index 16 of the catalog). -/
def chatAction : Action := AllActions.get ⟨16, by norm_num [AllActions]⟩

/-- Agent of the C3 counterexample: two stones, more than the target. -/
def c3Agent : Agent :=
  { baseAgent with inventory := { emptyInventory with stones := 2 } }

/-- A goal wanting exactly one stone in the inventory. -/
def oneStoneGoal : GoalState := [.inventory [(.stones, 1)]]

/-- A goal with an empty goal state: its distance is 0 everywhere. -/
def trivialGoal : Goal := ⟨"trivial", []⟩

/-- Agent whose social drive already meets `socialGoal`. -/
def c8Agent : Agent := { baseAgent with social := 100 }

/-- A search node with no actions (the shape of the seed node). -/
def qNode0 : Solution := .base none []

/-- A search node holding one Chat action (cost 1). -/
def qNode1 : Solution := .base none [chatAction]

/-- Goal used by the C10 witness: unsatisfied hunger first, satisfied
shelter last. -/
def c10Goal : Goal :=
  ⟨"hungry but sheltered", [.num .hunger 100, .boolean .hasShelter true]⟩

/-- Agent of the C10 witness: hunger below target, shelter owned. -/
def c10Agent : Agent := { baseAgent with hasShelter := true }

/-- A goal no catalog action can ever reach (`alive: false`): every
candidate leaves the distance unchanged, so the queue empties. -/
def impossibleGoal : Goal := ⟨"impossible", [.boolean .alive false]⟩

/-- The root-level progress measure of the C7 fixture: distance to the
social goal. -/
def c7Check : State → Agent → ℚ :=
  fun s a => goalDistance s a socialGoal.goalState

/-- The measure of the seed node on the C7 fixture before expansion. -/
def c7Dist : ℚ := goalDistance c7State c7Agent socialGoal.goalState

/- ------------------------------------------------------------------ -/
/- Helper lemmas                                                      -/
/- ------------------------------------------------------------------ -/

theorem goalDistanceGo_num_zero (agent : Agent) (f : NumField) (t : ℚ)
    (h : t ≤ agent.numField f) :
    ∀ (gs1 gs2 : List GoalEntry) (acc : ℚ),
      goalDistanceGo agent (gs1 ++ .num f t :: gs2) acc = 0 := by
  intro gs1
  induction gs1 with
  | nil =>
      intro gs2 acc
      simp [goalDistanceGo, h]
  | cons e rest ih =>
      intro gs2 acc
      cases e with
      | inventory ts => simpa [goalDistanceGo] using ih gs2 _
      | holding tgt => simpa [goalDistanceGo] using ih gs2 _
      | num f' t' =>
          by_cases h' : t' ≤ agent.numField f'
          · simp [goalDistanceGo, h']
          · simpa [goalDistanceGo, h'] using ih gs2 _
      | boolean f' b => simpa [goalDistanceGo] using ih gs2 _

theorem inventoryDistance_eq_zero_iff (inv : Inventory)
    (ts : List (InvField × ℤ)) :
    inventoryDistance inv ts = 0 ↔ ∀ p ∈ ts, inv.get p.1 = p.2 := by
  induction ts with
  | nil => simp [inventoryDistance]
  | cons p rest ih =>
      have habs : (0 : ℤ) ≤ |p.2 - inv.get p.1| := abs_nonneg _
      have hsum : (0 : ℤ) ≤ (rest.map (fun q => |q.2 - inv.get q.1|)).sum := by
        apply List.sum_nonneg
        intro x hx
        obtain ⟨q, _, rfl⟩ := List.mem_map.mp hx
        exact abs_nonneg _
      constructor
      · intro h
        have h' := ((add_eq_zero_iff_of_nonneg habs hsum).mp
          (by simpa [inventoryDistance] using h))
        intro q hq
        rcases List.mem_cons.mp hq with rfl | hq'
        · have := abs_eq_zero.mp h'.1
          omega
        · exact (ih.mp (by simpa [inventoryDistance] using h'.2)) q hq'
      · intro h
        have h1 : inv.get p.1 = p.2 := h p (List.mem_cons_self p rest)
        have h2 : inventoryDistance inv rest = 0 :=
          ih.mpr (fun q hq => h q (List.mem_cons_of_mem p hq))
        simp [inventoryDistance] at h2 ⊢
        rw [h1, sub_self, abs_zero, zero_add]
        exact h2

theorem applyActions_nonstrict (actions : List Action) :
    ∀ cur, applyActions actions cur false = applyAllEffects actions cur := by
  induction actions with
  | nil => intro cur; simp [applyActions, applyAllEffects]
  | cons a rest ih =>
      intro cur
      simp [applyActions, applyAllEffects] at ih ⊢
      exact ih _

theorem applyActions_strict_decomp (actions : List Action) :
    ∀ cur, ∃ p s, actions = p ++ s ∧ stepsPerformable p cur ∧
      applyActions actions cur true = applyAllEffects p cur ∧
      blockedHead s (applyAllEffects p cur) := by
  induction actions with
  | nil =>
      intro cur
      exact ⟨[], [], rfl, trivial, rfl, trivial⟩
  | cons a rest ih =>
      intro cur
      by_cases h : a.canBePerformed cur.state cur.agent = 0
      · obtain ⟨p, s, heq, hsteps, happ, hblocked⟩ :=
          ih (a.effect cur.state cur.agent)
        refine ⟨a :: p, s, by simp [heq], ⟨h, hsteps⟩, ?_, ?_⟩
        · simpa [applyActions, h, applyAllEffects] using happ
        · simpa [applyAllEffects] using hblocked
      · refine ⟨[], a :: rest, rfl, trivial, ?_, h⟩
        simp [applyActions, h, applyAllEffects]

theorem planLoop_sound (fuel : ℕ) :
    ∀ (catalog : List Action) (state : State) (agent : Agent) (goal : Goal)
      (q : List Solution) (p : List Action),
      planLoop catalog state agent goal fuel q = some (some p) →
      strictGoalDistance state agent goal p = 0 := by
  induction fuel with
  | zero => intro catalog state agent goal q p h; simp [planLoop] at h
  | succ n ih =>
      intro catalog state agent goal q p h
      cases q with
      | nil => simp [planLoop] at h
      | cons sol rest =>
          rw [planLoop] at h
          by_cases hs : isSolution state agent goal sol = true
          · rw [if_pos hs] at h
            have hp : p = solutionToActions sol := by
              injection h with h1
              injection h1 with h2
              exact h2.symm
            subst hp
            have := of_decide_eq_true hs
            simpa [strictGoalDistance] using this
          · rw [if_neg hs] at h
            exact ih catalog state agent goal _ p h

theorem insertSorted_mem (state : State) (agent : Agent) (sol : Solution) :
    ∀ (q : List Solution) (x : Solution),
      x ∈ insertSorted state agent sol q → x = sol ∨ x ∈ q := by
  intro q
  induction q with
  | nil => intro x hx; simpa [insertSorted] using hx
  | cons h rest ih =>
      intro x hx
      rw [insertSorted] at hx
      by_cases hc : cost state agent sol < cost state agent h
      · rw [if_pos hc] at hx
        rcases List.mem_cons.mp hx with rfl | hx'
        · exact Or.inl rfl
        · exact Or.inr hx'
      · rw [if_neg hc] at hx
        rcases List.mem_cons.mp hx with rfl | hx'
        · exact Or.inr (List.mem_cons_self _ _)
        · rcases ih x hx' with rfl | hmem
          · exact Or.inl rfl
          · exact Or.inr (List.mem_cons_of_mem _ hmem)

theorem insertSorted_sorted (state : State) (agent : Agent) (sol : Solution) :
    ∀ q : List Solution, QueueSorted state agent q →
      QueueSorted state agent (insertSorted state agent sol q) := by
  intro q
  induction q with
  | nil => intro _; simp [insertSorted, QueueSorted]
  | cons h rest ih =>
      intro hq
      obtain ⟨hhead, hrest⟩ := List.pairwise_cons.mp hq
      rw [insertSorted]
      by_cases hc : cost state agent sol < cost state agent h
      · rw [if_pos hc]
        refine List.pairwise_cons.mpr ⟨?_, hq⟩
        intro x hx
        rcases List.mem_cons.mp hx with rfl | hx'
        · exact le_of_lt hc
        · exact le_trans (le_of_lt hc) (hhead x hx')
      · rw [if_neg hc]
        refine List.pairwise_cons.mpr ⟨?_, ih hrest⟩
        intro x hx
        rcases insertSorted_mem state agent sol rest x hx with rfl | hmem
        · exact not_lt.mp hc
        · exact hhead x hmem

theorem considerCandidate_sorted (state : State) (agent : Agent)
    (check : State → Agent → ℚ) (sol : Solution) (dist : ℚ)
    (q : List Solution) (action : Action) (hq : QueueSorted state agent q) :
    QueueSorted state agent
      (considerCandidate state agent check sol dist q action) := by
  rw [considerCandidate]
  split
  · exact insertSorted_sorted state agent _ q hq
  · split
    · exact insertSorted_sorted state agent _ q hq
    · exact hq

theorem expand_sorted (catalog : List Action) (state : State) (agent : Agent)
    (goal : Goal) (sol : Solution) (q : List Solution)
    (hq : QueueSorted state agent q) :
    QueueSorted state agent (expand catalog state agent goal sol q) := by
  rw [expand]
  induction catalog generalizing q with
  | nil => simpa using hq
  | cons a rest ih =>
      simpa using ih _ (considerCandidate_sorted _ _ _ _ _ _ _ hq)

theorem foldl_add_init (l : List (WithTop ℚ)) :
    ∀ a : WithTop ℚ, l.foldl (· + ·) a = a + l.foldl (· + ·) 0 := by
  induction l with
  | nil => intro a; simp
  | cons x rest ih =>
      intro a
      rw [List.foldl_cons, ih, List.foldl_cons, ih (0 + x), zero_add,
        add_assoc]

theorem cost_eq_flatten_sum (state : State) (agent : Agent) :
    ∀ sol : Solution, cost state agent sol =
      ((solutionToActions sol).map (fun a => a.cost state agent)).sum := by
  intro sol
  induction sol with
  | base t actions => simp [cost, solutionToActions, List.sum_eq_foldl]
  | link next t actions ih =>
      simp [cost, solutionToActions, ih, List.sum_eq_foldl]
      conv_rhs => rw [foldl_add_init]

/- ------------------------------------------------------------------ -/
/- Claim theorems                                                     -/
/- ------------------------------------------------------------------ -/

/-- C5: `applyActions` applies every effect in order when not strict;
in strict mode it executes the longest prefix whose preconditions hold
step by step (returning the pair accumulated so far) and stops at the
first action whose precondition check is non-zero. -/
theorem applyActions_spec :
    (∀ (actions : List Action) (cur : EffectedStateAndAgent),
      applyActions actions cur false = applyAllEffects actions cur) ∧
    (∀ (actions : List Action) (cur : EffectedStateAndAgent),
      ∃ p s, actions = p ++ s ∧ stepsPerformable p cur ∧
        applyActions actions cur true = applyAllEffects p cur ∧
        blockedHead s (applyAllEffects p cur)) :=
  ⟨applyActions_nonstrict, applyActions_strict_decomp⟩

/-- C2: a numeric goal entry whose target is already met by the agent
makes `goalDistance` return 0 outright, whatever the other entries are;
an unmet numeric entry adds `abs(target - value) / 100` to the running
accumulator. -/
theorem goalDistance_numeric_spec :
    (∀ (state : State) (agent : Agent) (gs1 gs2 : List GoalEntry)
        (f : NumField) (t : ℚ), t ≤ agent.numField f →
      goalDistance state agent (gs1 ++ .num f t :: gs2) = 0) ∧
    (∀ (agent : Agent) (f : NumField) (t : ℚ) (rest : List GoalEntry)
        (acc : ℚ), agent.numField f < t →
      goalDistanceGo agent (.num f t :: rest) acc =
        goalDistanceGo agent rest (acc + |t - agent.numField f| / 100)) := by
  constructor
  · intro state agent gs1 gs2 f t h
    exact goalDistanceGo_num_zero agent f t h gs1 gs2 0
  · intro agent f t rest acc h
    simp [goalDistanceGo, not_le.mpr h]

/-- C2 witness: with hunger 100 against target 80 the whole distance is
0 even though the other entry (shelter) is unsatisfied; with hunger 50
the entry adds 0.5. -/
theorem goalDistance_numeric_spec_witness :
    goalDistance emptyState c8Agent
        ([.boolean .hasShelter true] ++ .num .social 100 :: []) = 0 ∧
    goalDistanceGo baseAgent [.num .hunger 100] 0 =
      goalDistanceGo baseAgent [] (0 + |(100 : ℚ) - baseAgent.hunger| / 100) :=
  ⟨goalDistance_numeric_spec.1 emptyState c8Agent [.boolean .hasShelter true]
      [] .social 100 (by with_unfolding_all decide),
    goalDistance_numeric_spec.2 baseAgent .hunger 100 [] 0
      (by with_unfolding_all decide)⟩

/-- C3 counterexample: the agent owns two stones, at least the target
count of one, yet the goal distance of the inventory-only goal is
`abs(1 - 2) = 1`, not 0: inventory targets are not satisfied by
"greater than or equal". -/
theorem goalDistance_inventory_counterexample :
    (1 : ℤ) ≤ c3Agent.inventory.get .stones ∧
      goalDistance emptyState c3Agent oneStoneGoal ≠ 0 := by
  with_unfolding_all decide

/-- C3 (amended): an inventory entry contributes
`abs(target - count)`, so a goal consisting only of inventory targets
has distance 0 exactly when every targeted count equals its target. -/
theorem goalDistance_inventory_exact :
    ∀ (state : State) (agent : Agent) (ts : List (InvField × ℤ)),
      goalDistance state agent [.inventory ts] = 0 ↔
        ∀ p ∈ ts, agent.inventory.get p.1 = p.2 := by
  intro state agent ts
  have : goalDistance state agent [.inventory ts] =
      ((inventoryDistance agent.inventory ts : ℤ) : ℚ) := by
    simp [goalDistance, goalDistanceGo]
  rw [this]
  rw [show ((inventoryDistance agent.inventory ts : ℤ) : ℚ) = 0 ↔
      inventoryDistance agent.inventory ts = 0 from Int.cast_eq_zero]
  exact inventoryDistance_eq_zero_iff agent.inventory ts

/-- C8: when the goal distance of the initial pair is already 0, the
planner pops the seed, finds it a solution, and returns the empty
plan. -/
theorem makePlanBetter_already_satisfied (fuel : ℕ) (agent : Agent)
    (state : State) (goal : Goal)
    (h : goalDistance state agent goal.goalState = 0) :
    makePlanBetter (fuel + 1) agent state goal = some (some []) := by
  have hsol : isSolution state agent goal (.base none []) = true := by
    simp [isSolution, solutionToActions, applyActions, h]
  simp [makePlanBetter, makePlanBetterWith, planLoop, hsol, solutionToActions]

/-- C8 witness: an agent whose social drive is already 100 against the
social goal receives the empty plan. -/
theorem makePlanBetter_already_satisfied_witness :
    makePlanBetter 1 c8Agent emptyState socialGoal = some (some []) :=
  makePlanBetter_already_satisfied 0 c8Agent emptyState socialGoal
    (by with_unfolding_all decide)

/-- C9: when the queue is empty the search loop returns the "no plan"
sentinel `null` (`some none`): it neither throws (the loop is total)
nor returns a partial plan.  On the concrete unreachable goal
`impossibleGoal` the queue empties after the seed is expanded and the
planner indeed returns the sentinel. -/
theorem planLoop_empty_queue :
    (∀ (catalog : List Action) (state : State) (agent : Agent) (goal : Goal)
        (fuel : ℕ),
      planLoop catalog state agent goal (fuel + 1) [] = some none) ∧
    makePlanBetter 3 baseAgent emptyState impossibleGoal = some none := by
  constructor
  · intro catalog state agent goal fuel
    rw [planLoop]
  · with_unfolding_all rfl

/-- C10: `goalSatisfied` reassigns its flag on every key, so on a goal
with more than one key only the last-enumerated key's check survives. -/
theorem goalSatisfied_last_key (agent : Agent) (name : String)
    (gs : List GoalEntry) (k : GoalEntry) (hlen : 0 < gs.length) :
    goalSatisfied agent ⟨name, gs ++ [k]⟩ = goalEntrySatisfied agent k := by
  simp [goalSatisfied, List.foldl_append]

/-- C10 witness: hunger 50 fails its target, but the goal is reported
satisfied because the final shelter key is satisfied. -/
theorem goalSatisfied_last_key_witness :
    goalSatisfied c10Agent c10Goal = goalEntrySatisfied c10Agent
        (.boolean .hasShelter true) ∧
    goalEntrySatisfied c10Agent (.num .hunger 100) = false ∧
    goalSatisfied c10Agent c10Goal = true :=
  ⟨goalSatisfied_last_key c10Agent "hungry but sheltered"
      [.num .hunger 100] (.boolean .hasShelter true) (by decide),
    by with_unfolding_all decide, by with_unfolding_all decide⟩

/-- C1: whenever the planner returns a (non-null) plan, applying that
plan strictly from the original pair yields a goal distance of exactly
0 (the loop only exits with a plan through its `isSolution` test). -/
theorem makePlanBetter_goal_satisfaction (fuel : ℕ) (agent : Agent)
    (state : State) (goal : Goal) (p : List Action)
    (h : makePlanBetter fuel agent state goal = some (some p)) :
    strictGoalDistance state agent goal p = 0 := by
  rw [makePlanBetter, makePlanBetterWith] at h
  exact planLoop_sound fuel AllActions state agent goal _ p h

/-- C1 witness: the five-action plan the planner returns on the
`cexState` fixture strictly reaches goal distance 0. -/
theorem makePlanBetter_goal_satisfaction_witness :
    strictGoalDistance cexState cexAgent cexGoal cexPlan = 0 :=
  makePlanBetter_goal_satisfaction 15 cexAgent cexState cexGoal cexPlan
    (by with_unfolding_all rfl)

/-- C6: a node's priority key equals the sum of the costs of every
action across every level reachable through `nextSteps` (evaluated at
the root pair), and the spec-modelled queue (cost-sorted, insertion
order on ties) always pops a minimal-cost node: the head of a sorted
queue is no more expensive than any queued node, and both `insertSorted`
and a full `expand` step preserve sortedness. -/
theorem cost_key_and_queue_minimality :
    (∀ (state : State) (agent : Agent) (sol : Solution),
      cost state agent sol =
        ((solutionToActions sol).map (fun a => a.cost state agent)).sum) ∧
    (∀ (state : State) (agent : Agent) (sol : Solution) (q : List Solution),
      QueueSorted state agent (sol :: q) →
        ∀ x ∈ q, cost state agent sol ≤ cost state agent x) ∧
    (∀ (state : State) (agent : Agent) (sol : Solution) (q : List Solution),
      QueueSorted state agent q →
        QueueSorted state agent (insertSorted state agent sol q)) ∧
    (∀ (catalog : List Action) (state : State) (agent : Agent) (goal : Goal)
        (sol : Solution) (q : List Solution),
      QueueSorted state agent q →
        QueueSorted state agent (expand catalog state agent goal sol q)) :=
  ⟨cost_eq_flatten_sum,
    fun _ _ _ _ hq => (List.pairwise_cons.mp hq).1,
    insertSorted_sorted,
    expand_sorted⟩

/-- C6 witness: in the sorted two-node queue `[qNode0, qNode1]` the head
(cost 0) is no more expensive than the queued Chat node (cost 1). -/
theorem cost_key_and_queue_minimality_witness :
    cost emptyState baseAgent qNode0 ≤ cost emptyState baseAgent qNode1 :=
  cost_key_and_queue_minimality.2.1 emptyState baseAgent qNode0 [qNode1]
    (by
      refine List.pairwise_cons.mpr ⟨?_, List.pairwise_singleton _ _⟩
      intro x hx
      have hx' : x = qNode1 := by simpa using hx
      subst hx'
      with_unfolding_all decide)
    qNode1 (by simp)

/-- C7 counterexample: on the C7 fixture the Chat candidate has
`delta > 0` and new measure exactly 0, and the node pushed by the
candidate step has an empty own action list and `toPerform = Chat` —
but its `nextSteps` is not the current node: its `nextSteps` carries a
one-action list (`[Chat]`, the candidate prepended) while the current
node's list is empty. -/
theorem considerCandidate_nextSteps_counterexample :
    0 < c7Dist -
        c7Check (applyActions [chatAction] ⟨c7State, c7Agent⟩ false).state
          (applyActions [chatAction] ⟨c7State, c7Agent⟩ false).agent ∧
    c7Check (applyActions [chatAction] ⟨c7State, c7Agent⟩ false).state
        (applyActions [chatAction] ⟨c7State, c7Agent⟩ false).agent = 0 ∧
    ((considerCandidate c7State c7Agent c7Check qNode0 c7Dist []
          chatAction).head?.map (fun n =>
            (n.actions.length, n.nextSteps.map (fun m => m.actions.length)))) =
      some (0, some 1) ∧
    qNode0.actions.length = 0 := by
  with_unfolding_all decide

/-- C7 (amended): when a candidate action gives `delta > 0` and makes
the current level's measure exactly 0, the pushed node is a fresh
Solution whose `toPerform` is the candidate and whose own action list is
empty, and whose `nextSteps` is the current node with the candidate
action prepended to its action list (not the unmodified current
node). -/
theorem considerCandidate_refinement (state : State) (agent : Agent)
    (check : State → Agent → ℚ) (sol : Solution) (dist : ℚ)
    (q : List Solution) (action : Action)
    (h : 0 < dist -
      check (applyActions (action :: sol.actions) ⟨state, agent⟩ false).state
        (applyActions (action :: sol.actions) ⟨state, agent⟩ false).agent)
    (h0 : check
        (applyActions (action :: sol.actions) ⟨state, agent⟩ false).state
        (applyActions (action :: sol.actions) ⟨state, agent⟩ false).agent =
      0) :
    considerCandidate state agent check sol dist q action =
      insertSorted state agent
        (.link (sol.withActions (action :: sol.actions)) (some action) [])
        q := by
  simp only [considerCandidate]
  rw [if_pos ⟨h, h0⟩]

/-- C7 witness: the refinement shape realised on the C7 Chat fixture. -/
theorem considerCandidate_refinement_witness :
    considerCandidate c7State c7Agent c7Check qNode0 c7Dist [] chatAction =
      insertSorted c7State c7Agent
        (.link (qNode0.withActions [chatAction]) (some chatAction) []) [] :=
  considerCandidate_refinement c7State c7Agent c7Check qNode0 c7Dist []
    chatAction (by with_unfolding_all decide) (by with_unfolding_all decide)

/-- C4 counterexample: on the `cexState` fixture the planner returns
the five-action plan Gather Stone, Make Axe, Fell Tree, Build Shelter,
Make Axe, and removing the action at index 4 (the trailing Make Axe,
which strict application never executes: the inner Make Axe already
consumed the only stone) still yields goal distance 0 — a removable
action, contradicting the claimed minimality. -/
theorem makePlanBetter_minimality_counterexample :
    (makePlanBetter 15 cexAgent cexState cexGoal).map (Option.map (fun p =>
      (p.map (fun a => a.name),
        strictGoalDistance cexState cexAgent cexGoal (p.eraseIdx 4)))) =
      some (some (["Gather Stone", "Make Axe", "Fell Tree", "Build Shelter",
        "Make Axe"], 0)) := by
  with_unfolding_all decide

/-- C4 (amended): the planner does not guarantee minimality: there are
an agent, world state, and goal for which the returned Plan contains an
action whose removal still leaves the remaining Plan, applied strictly
from the original pair, at goal distance 0. -/
theorem makePlanBetter_not_minimal :
    ∃ (fuel : ℕ) (agent : Agent) (state : State) (goal : Goal)
      (p : List Action) (i : ℕ),
      makePlanBetter fuel agent state goal = some (some p) ∧
        i < p.length ∧
        strictGoalDistance state agent goal (p.eraseIdx i) = 0 :=
  ⟨15, cexAgent, cexState, cexGoal, cexPlan, 4,
    by with_unfolding_all rfl,
    by with_unfolding_all decide,
    by with_unfolding_all decide⟩

end EmojiWorld
